import Mathlib

/-!
Verification of the master side of the MaxScale binlog router
(src/server/modules/routing/binlog/blr_master.c).

The development shallowly embeds the C module.  Bytes are modelled as
natural numbers (every byte read from the wire satisfies b < 256, since the
C code reads through uint8_t pointers); a network buffer (GWBUF) is a list
of bytes, and a GWBUF chain is a list of such segments.  Machine integer
operations are modelled with explicit mod, div and multiplication by powers
of two.  Reads past the end of a modelled buffer (which in C are reads of
unspecified bytes beyond an allocation) return 0.

Constants and collaborator functions that live in headers or other files of
the repository (blr.h, blr_file.c, the gwbuf library, the MySQL protocol
headers) are modelled from the specification; each such definition carries a
doc comment saying so.
-/

/-- A segment of bytes, the contents of one GWBUF buffer. -/
abbrev Segment : Type := List Nat

/-- A GWBUF chain: the singly linked list of buffers delivered by the I/O
layer.  The empty list models a NULL GWBUF pointer. -/
abbrev Chain : Type := List Segment

/-- Total number of bytes in a chain; models gwbuf_length. -/
def gwbuf_length (c : Chain) : Nat := (c.map List.length).sum

/-- One iteration of the extract_field loop per byte: read bytes
least-significant first, k times. -/
def extract_bytes : List Nat → Nat → Nat
  | _, 0 => 0
  | src, k + 1 => src.headD 0 + 256 * extract_bytes src.tail k

/-- Models the C function extract_field (blr_master.c): reads bytes
least-significant first while bits remain (the loop body subtracts 8 from
bits, so it runs ceil(bits / 8) times), oring each byte shifted left by
8 * i.  Because the source reads through a uint8_t pointer every byte is
below 256, so the bitwise or of disjoint byte positions is addition; the
model uses the arithmetic form.  Reading past the modelled buffer gives 0. -/
def extract_field (src : List Nat) (bits : Nat) : Nat :=
  extract_bytes src ((bits + 7) / 8)

/-- One iteration of the encode_value loop per byte: emit value mod 256 and
divide value by 256, k times. -/
def encode_bytes : Nat → Nat → List Nat
  | _, 0 => []
  | value, k + 1 => value % 256 :: encode_bytes (value / 256) k

/-- Models the C function encode_value (blr_master.c): while len > 0 emit
value & 0xff and shift value right by 8 (the loop runs ceil(len / 8)
times).  On unsigned integers the mask is mod 256 and the shift is
division by 256. -/
def encode_value (value : Nat) (len : Nat) : List Nat :=
  encode_bytes value ((len + 7) / 8)

/-- Models memcpy of n bytes out of a modelled buffer: bytes past the end of
the list (reads of unspecified memory in C) are 0. -/
def readBytes (l : List Nat) (n : Nat) : List Nat :=
  (List.range n).map (fun i => l.getD i 0)

/-- Models strncpy of n bytes from a C string: bytes are copied up to the
first NUL, after which the destination is NUL padded. -/
def strncpyBytes (src : List Nat) (n : Nat) : List Nat :=
  match n, src with
  | 0, _ => []
  | m + 1, [] => List.replicate (m + 1) 0
  | m + 1, b :: rest => if b = 0 then List.replicate (m + 1) 0 else b :: strncpyBytes rest m

/-- Bytes of an ASCII string, as strlen and memcpy see them. -/
def strBytes (s : String) : List Nat := s.data.map Char.toNat

/-- Single quote character as a string, used to build the probe queries
without quote literals. -/
def squo : String := String.singleton (Char.ofNat 39)

/-- Modelled from the spec: COM_QUERY command byte (0x03), defined in the
MySQL protocol headers, which are not part of the sources. -/
def COM_QUERY : Nat := 0x03

/-- Modelled from the spec: COM_REGISTER_SLAVE command byte (0x15). -/
def COM_REGISTER_SLAVE : Nat := 0x15

/-- Modelled from the spec: COM_BINLOG_DUMP command byte (0x12). -/
def COM_BINLOG_DUMP : Nat := 0x12

/-- Modelled from the spec: BINLOG_FNAMELEN = 40, defined in blr.h which is
not part of the sources. -/
def BINLOG_FNAMELEN : Nat := 40

/-- Modelled from the spec: ROTATE_EVENT type code (0x04) of the MySQL 5.6
binlog format. -/
def ROTATE_EVENT : Nat := 0x04

/-- Modelled from the spec: FORMAT_DESCRIPTION_EVENT type code (0x0f). -/
def FORMAT_DESCRIPTION_EVENT : Nat := 0x0f

/-- Modelled from the spec: HEARTBEAT_EVENT type code (0x1b). -/
def HEARTBEAT_EVENT : Nat := 0x1b

/-- Modelled from the spec: LOG_EVENT_ARTIFICIAL_F flag bit (0x20) as
defined by MySQL. -/
def LOG_EVENT_ARTIFICIAL_F : Nat := 0x20

/-- Modelled from the spec (blr.h is not in the sources): the master state
machine states in execution order, represented by their integer values. -/
def BLRM_AUTHENTICATED : Nat := 0

/-- State awaiting the response to SELECT UNIX_TIMESTAMP(). -/
def BLRM_TIMESTAMP : Nat := 1

/-- State awaiting the response to the server id probe. -/
def BLRM_SERVERID : Nat := 2

/-- State awaiting the response to the heartbeat period probe. -/
def BLRM_HBPERIOD : Nat := 3

/-- State awaiting the response to SET @master_binlog_checksum. -/
def BLRM_CHKSUM1 : Nat := 4

/-- State awaiting the response to SELECT @master_binlog_checksum. -/
def BLRM_CHKSUM2 : Nat := 5

/-- State awaiting the response to the GTID mode probe. -/
def BLRM_GTIDMODE : Nat := 6

/-- State awaiting the response to the master uuid probe. -/
def BLRM_MUUID : Nat := 7

/-- State awaiting the response to SET @slave_uuid. -/
def BLRM_SUUID : Nat := 8

/-- State awaiting the response to SET NAMES latin1. -/
def BLRM_LATIN1 : Nat := 9

/-- State awaiting the response to the slave registration message. -/
def BLRM_REGISTER : Nat := 10

/-- Terminal streaming state: binlog records are being received. -/
def BLRM_BINLOGDUMP : Nat := 11

/-- Modelled from the spec: BLRM_MAXSTATE, the largest valid state value. -/
def BLRM_MAXSTATE : Nat := 11

/-- The saved handshake response buffers of a router instance (the
saved_master structure of blr.h, modelled from the spec data model). -/
structure SavedMaster where
  server_id : Option Chain := none
  heartbeat : Option Chain := none
  chksum1 : Option Chain := none
  chksum2 : Option Chain := none
  gtid_mode : Option Chain := none
  uuid : Option Chain := none
  setslaveuuid : Option Chain := none
  setnames : Option Chain := none
  fde_event : Option (List Nat) := none
  fde_len : Nat := 0
  deriving Repr, DecidableEq

/-- One registered downstream slave (ROUTER_SLAVE of blr.h, modelled from
the spec data model): the next binlog offset it expects and its one-byte
MySQL sequence id, rotated modulo 256 per outbound packet. -/
structure ROUTER_SLAVE where
  binlog_pos : Nat
  seqno : Nat
  deriving Repr, DecidableEq, Inhabited

/-- The statistics block of a router instance. -/
structure RouterStats where
  n_binlogs : Nat := 0
  n_fakeevents : Nat := 0
  n_rotates : Nat := 0
  n_binlog_errors : Nat := 0
  events : List Nat := List.replicate 0x24 0
  deriving Repr, DecidableEq

/-- The router instance state touched by blr_master.c (ROUTER_INSTANCE of
blr.h, modelled from the spec data model).  Fields that are opaque to this
module (connection handles, credentials, the service pointer) are omitted;
the port field stands for service->ports->port. -/
structure RouterInstance where
  master_state : Nat
  uuid : String
  serverid : Nat
  masterid : Nat
  port : Nat
  binlog_name : List Nat
  binlog_position : Nat
  saved_master : SavedMaster
  residual : Chain
  slaves : List ROUTER_SLAVE
  stats : RouterStats
  active_logs : Bool
  queue : List Chain
  deriving Repr, DecidableEq

/-- Models blr_make_query: 3-byte little-endian payload length strlen + 1,
sequence id 0, COM_QUERY, then the query text without trailing NUL. -/
def blr_make_query (query : String) : List Nat :=
  encode_value ((strBytes query).length + 1) 24 ++ [0, COM_QUERY] ++ strBytes query

/-- Models blr_make_registration: payload length 18, sequence id 0,
COM_REGISTER_SLAVE, slave server id, zero host/user/password lengths, the
service port, replication rank 0 and the master server id. -/
def blr_make_registration (router : RouterInstance) : List Nat :=
  encode_value 18 24 ++ [0, COM_REGISTER_SLAVE] ++ encode_value router.serverid 32
    ++ [0, 0, 0] ++ encode_value router.port 16 ++ encode_value 0 32
    ++ encode_value router.masterid 32

/-- Models blr_make_binlog_dump: the sequence of bytes the builder stores,
in store order, starting at offset 0 of the buffer it allocates.  The
builder encodes payload length 0x1b, sequence id 0, COM_BINLOG_DUMP, the
32-bit binlog position, 16-bit flags 0, the 32-bit server id of MaxScale,
then strncpy of BINLOG_FNAMELEN bytes of the binlog file name. -/
def blr_make_binlog_dump (router : RouterInstance) : List Nat :=
  encode_value 0x1b 24 ++ [0, COM_BINLOG_DUMP] ++ encode_value router.binlog_position 32
    ++ encode_value 0 16 ++ encode_value router.serverid 32
    ++ strncpyBytes router.binlog_name BINLOG_FNAMELEN

/-- Number of bytes blr_make_binlog_dump allocates for its buffer:
gwbuf_alloc(len + 4) with len = 0x1b. -/
def blr_make_binlog_dump_alloc : Nat := 0x1b + 4

/-- The replication event header populated by blr_extract_header. -/
structure REP_HEADER where
  payload_len : Nat
  seqno : Nat
  ok : Nat
  timestamp : Nat
  event_type : Nat
  serverid : Nat
  event_size : Nat
  next_pos : Nat
  flags : Nat
  deriving Repr, DecidableEq

/-- Models blr_extract_header: fixed-offset little-endian extraction of the
MySQL framing bytes and the 19-byte replication event header. -/
def blr_extract_header (ptr : List Nat) : REP_HEADER :=
  { payload_len := extract_field ptr 24
    seqno := ptr.getD 3 0
    ok := ptr.getD 4 0
    timestamp := extract_field (ptr.drop 5) 32
    event_type := ptr.getD 9 0
    serverid := extract_field (ptr.drop 10) 32
    event_size := extract_field (ptr.drop 14) 32
    next_pos := extract_field (ptr.drop 18) 32
    flags := extract_field (ptr.drop 22) 16 }

/-- Unsigned 32-bit subtraction as performed by the C expression
hdr->next_pos - hdr->event_size on uint32_t operands. -/
def usub32 (a b : Nat) : Nat := (a + 2 ^ 32 - b % 2 ^ 32) % 2 ^ 32

/-- Equality test of strncmp(a, b, n) == 0: compare byte pairs, stopping
early when both strings end with a NUL at the same position. -/
def strncmpEq : List Nat → List Nat → Nat → Bool
  | _, _, 0 => true
  | a, b, n + 1 =>
    if a.headD 0 ≠ b.headD 0 then false
    else if a.headD 0 = 0 then true
    else strncmpEq a.tail b.tail n

/-- Modelled from the spec: blr_file_rotate (blr_file.c is not in the
sources) closes the current binlog file and opens the named one at the
given position; on the router this installs the new name and position.
The returned list records the rotation told to the file component. -/
def blr_file_rotate (router : RouterInstance) (file : List Nat) (pos : Nat) :
    RouterInstance × List (List Nat × Nat) :=
  ({ router with binlog_name := file, binlog_position := pos }, [(file, pos)])

/-- Models blr_rotate_event: skip the 19-byte event header, assemble the
position from two 32-bit little-endian extractions and read
BINLOG_FNAMELEN bytes of file name.  The C source computes
extract_field(ptr + 4, 32) << 32 on a uint32_t operand, so the shift is
performed in 32 bits before the 64-bit addition; the model renders that
shift as multiplication by 2 ^ 32 reduced mod 2 ^ 32.  When the name
differs from router->binlog_name under strncmp, n_rotates is incremented
and blr_file_rotate is invoked. -/
def blr_rotate_event (router : RouterInstance) (ptr : List Nat) (hdr : REP_HEADER) :
    RouterInstance × List (List Nat × Nat) :=
  let p := ptr.drop 19
  let pos := extract_field p 32 + (extract_field (p.drop 4) 32 * 2 ^ 32) % 2 ^ 32
  let file := readBytes (p.drop 8) BINLOG_FNAMELEN
  let _ := hdr.event_size
  if strncmpEq router.binlog_name file BINLOG_FNAMELEN then (router, [])
  else
    let r1 := { router with stats := { router.stats with n_rotates := router.stats.n_rotates + 1 } }
    blr_file_rotate r1 file pos

/-- Models one iteration of the slave loop in blr_distribute_binlog_record:
if the slave position matches next_pos - event_size, build the packet of
event_size + 5 bytes (24-bit length event_size + 1, the current one-byte
seqno which is then incremented modulo 256, an OK byte 0 and the raw
event), hand it to the slave and advance its position; otherwise leave the
slave untouched.  The Bool records whether blr_slave_rotate was invoked. -/
def blr_distribute_slave (hdr : REP_HEADER) (ptr : List Nat) (slave : ROUTER_SLAVE) :
    ROUTER_SLAVE × Option (List Nat) × Bool :=
  if slave.binlog_pos = usub32 hdr.next_pos hdr.event_size then
    let pkt := encode_value (hdr.event_size + 1) 24 ++ [slave.seqno % 256, 0]
      ++ readBytes ptr hdr.event_size
    ({ binlog_pos := hdr.next_pos, seqno := (slave.seqno + 1) % 256 }, some pkt,
      hdr.event_type = ROTATE_EVENT)
  else (slave, none, false)

/-- Models blr_distribute_binlog_record: walk the slave list under the
instance lock, applying blr_distribute_slave to each slave.  Returns the
updated router and, parallel to the slave list, the packet each slave was
sent (none for a skipped slave). -/
def blr_distribute_binlog_record (router : RouterInstance) (hdr : REP_HEADER) (ptr : List Nat) :
    RouterInstance × List (Option (List Nat)) :=
  let results := router.slaves.map (blr_distribute_slave hdr ptr)
  ({ router with slaves := results.map (fun x => x.1) }, results.map (fun x => x.2.1))

/-- External effects of processing one binlog event. -/
structure EventEff where
  fileWrites : List (List Nat) := []
  fileRotates : List (List Nat × Nat) := []
  sends : List (Option (List Nat)) := []
  errorLogged : Bool := false
  deriving Repr, DecidableEq

/-- Models the per-packet body of blr_handle_binlog_record (the code
between blr_extract_header and the consume of the packet): classify the
event, account statistics, save fake format description events, ignore
heartbeats, write and distribute ordinary events (rotating first when the
event is a rotate), and for events whose flags word equals
LOG_EVENT_ARTIFICIAL_F only invoke rotate handling.  The payload written
to the binlog file starts 5 bytes into the MySQL packet. -/
def blr_handle_event (router : RouterInstance) (ptr : List Nat) : RouterInstance × EventEff :=
  let hdr := blr_extract_header ptr
  if hdr.ok = 0 then
    let st0 := router.stats
    let st1 := { st0 with n_binlogs := st0.n_binlogs + 1 }
    let st2 := if hdr.event_type < 0x24 then
        { st1 with events := st1.events.set hdr.event_type (st1.events.getD hdr.event_type 0 + 1) }
      else st1
    let r2 := { router with stats := st2 }
    if hdr.event_type = FORMAT_DESCRIPTION_EVENT ∧ hdr.next_pos = 0 then
      let fde := some (readBytes (ptr.drop 5) hdr.event_size)
      let sm := { r2.saved_master with fde_len := hdr.event_size, fde_event := fde }
      let st3 := { st2 with n_fakeevents := st2.n_fakeevents + 1 }
      ({ r2 with stats := st3, saved_master := sm }, {})
    else if hdr.event_type = HEARTBEAT_EVENT then (r2, {})
    else if hdr.flags ≠ LOG_EVENT_ARTIFICIAL_F then
      let p5 := ptr.drop 5
      let step := if hdr.event_type = ROTATE_EVENT then blr_rotate_event r2 p5 hdr
        else (r2, [])
      let dist := blr_distribute_binlog_record step.1 hdr p5
      (dist.1, { fileWrites := [readBytes p5 hdr.event_size], fileRotates := step.2,
                 sends := dist.2 })
    else
      let p5 := ptr.drop 5
      let step := if hdr.event_type = ROTATE_EVENT then blr_rotate_event r2 p5 hdr
        else (r2, [])
      (step.1, { fileRotates := step.2 })
  else
    ({ router with stats :=
       { router.stats with n_binlog_errors := router.stats.n_binlog_errors + 1 } },
     { errorLogged := true })

/-- Models gwbuf_consume(head, n): advance the head buffer by n bytes; a
fully (or over-) consumed head buffer is freed and the rest of the chain
returned.  Consumption never spills into the next buffer. -/
def gwbuf_consume (c : Chain) (n : Nat) : Chain :=
  match c with
  | [] => []
  | a :: rest => if n < a.length then a.drop n :: rest else rest

/-- Models the packet length computation at the top of the reassembly loop
of blr_handle_binlog_record: the 24-bit length field plus 4 framing bytes,
read byte-by-byte across the first two buffers when the head buffer holds
fewer than 3 bytes.  With an empty head buffer the C variable len is never
assigned; the model returns the bare framing allowance 4 there. -/
def packetLen (c : Chain) : Nat :=
  match c with
  | [] => 4
  | a :: rest =>
    if 3 ≤ a.length then extract_field a 24 + 4
    else if a.length = 2 then extract_field a 16 + 65536 * extract_field (rest.headD []) 8 + 4
    else if a.length = 1 then extract_field a 8 + 256 * extract_field (rest.headD []) 16 + 4
    else 4

/-- Result of the reassembly loop: the router after all state updates, the
packets processed in order (the bytes blr_extract_header and the event
handlers saw), the per-event effects, and the unconsumed chain. -/
structure IngestOut where
  router : RouterInstance
  processed : List (List Nat) := []
  effs : List EventEff := []
  rest : Chain := []
  deriving Repr, DecidableEq

/-- Models the while loop of blr_handle_binlog_record.  While the chain
holds more than 24 bytes: compute the packet length; if the packet spans
past the head buffer but the chain holds it completely, copy the head
buffer and the needed bytes of the second buffer into a contiguous message
(the C code copies from the second buffer only, reading past its end when
the packet spans more than two buffers) and consume in two steps;
if the chain is too short, stop and leave the chain; otherwise process the
packet in place and consume it.  The fuel argument only serves
termination; blr_ingest below supplies enough fuel that it never runs
out. -/
def blr_ingest_loop : Nat → RouterInstance → Chain → IngestOut
  | 0, r, c => { router := r, rest := c }
  | fuel + 1, r, c =>
    if 24 < gwbuf_length c then
      match c with
      | [] => { router := r }
      | a :: rest =>
        let reslen := a.length
        let len := packetLen (a :: rest)
        if reslen < len ∧ len ≤ gwbuf_length (a :: rest) then
          let msg := a ++ readBytes (rest.headD []) (len - reslen)
          let he := blr_handle_event r msg
          let c1 := gwbuf_consume (gwbuf_consume (a :: rest) reslen) (len - reslen)
          let out := blr_ingest_loop fuel he.1 c1
          { out with processed := msg :: out.processed, effs := he.2 :: out.effs }
        else if reslen < len then { router := r, rest := a :: rest }
        else
          let he := blr_handle_event r a
          let c1 := gwbuf_consume (a :: rest) len
          let out := blr_ingest_loop fuel he.1 c1
          { out with processed := a.take len :: out.processed, effs := he.2 :: out.effs }
    else { router := r, rest := c }

/-- Fuel that strictly dominates the loop measure: every iteration removes
at least one byte or one buffer from the chain. -/
def ingestFuel (c : Chain) : Nat := gwbuf_length c + c.length + 1

/-- Result of one call of blr_handle_binlog_record. -/
structure HandleOut where
  router : RouterInstance
  processed : List (List Nat) := []
  effs : List EventEff := []
  flushed : Bool := true
  deriving Repr, DecidableEq

/-- Models blr_handle_binlog_record: prepend the residual to the delivered
chain, run the reassembly loop, store the unconsumed chain as the new
residual, and flush the binlog file (blr_file_flush, modelled from the
spec as an effect without router state change, recorded by flushed). -/
def blr_handle_binlog_record (router : RouterInstance) (pkt : Chain) : HandleOut :=
  let c := router.residual ++ pkt
  let out := blr_ingest_loop (ingestFuel c) { router with residual := [] } c
  { router := { out.router with residual := out.rest },
    processed := out.processed, effs := out.effs, flushed := true }

/-- Modelled from the spec: the MYSQL_RESPONSE_ERR macro of the MySQL
protocol headers, the error-packet marker: the first payload byte (offset
4 of the packet) is 0xff. -/
def MYSQL_RESPONSE_ERR (buf : Chain) : Bool := (buf.headD []).getD 4 0 = 0xff

/-- Probe query sent on entering BLRM_TIMESTAMP. -/
def qTimestamp : String := "SELECT UNIX_TIMESTAMP()"

/-- Probe query sent on entering BLRM_SERVERID. -/
def qServerId : String := "SHOW VARIABLES LIKE " ++ squo ++ "SERVER_ID" ++ squo

/-- Probe query sent on entering BLRM_HBPERIOD. -/
def qHbPeriod : String := "SET @master_heartbeat_period = 1799999979520"

/-- Probe query sent on entering BLRM_CHKSUM1. -/
def qChksum1 : String := "SET @master_binlog_checksum = @@global.binlog_checksum"

/-- Probe query sent on entering BLRM_CHKSUM2. -/
def qChksum2 : String := "SELECT @master_binlog_checksum"

/-- Probe query sent on entering BLRM_GTIDMODE. -/
def qGtidMode : String := "SELECT @@GLOBAL.GTID_MODE"

/-- Probe query sent on entering BLRM_MUUID. -/
def qMUuid : String := "SHOW VARIABLES LIKE " ++ squo ++ "SERVER_UUID" ++ squo

/-- Probe query sent on entering BLRM_SUUID, parameterised by the router
uuid (the sprintf in the BLRM_MUUID case). -/
def qSUuid (uuid : String) : String := "SET @slave_uuid=" ++ squo ++ uuid ++ squo

/-- Probe query sent on entering BLRM_LATIN1. -/
def qLatin1 : String := "SET NAMES latin1"

/-- External effects of blr_master_response: packets written to the master,
buffers consumed (buffer, number of bytes), buffers handed to binlog
ingestion, and the ingestion outputs. -/
structure MasterEff where
  writes : List (List Nat) := []
  consumed : List (Chain × Nat) := []
  ingested : List Chain := []
  processed : List (List Nat) := []
  eventEffs : List EventEff := []
  deriving Repr, DecidableEq

/-- Concatenation of master effects in program order. -/
def mergeEff (e1 e2 : MasterEff) : MasterEff :=
  { writes := e1.writes ++ e2.writes, consumed := e1.consumed ++ e2.consumed,
    ingested := e1.ingested ++ e2.ingested, processed := e1.processed ++ e2.processed,
    eventEffs := e1.eventEffs ++ e2.eventEffs }

/-- Models the switch statement of blr_master_response: the per-state
response handling.  In BLRM_TIMESTAMP the response is consumed (by the
head buffer length, GWBUF_LENGTH); in BLRM_SERVERID through BLRM_LATIN1
the response buffer is stored in its saved_master slot; in BLRM_REGISTER
the response buffer is neither stored nor consumed; each pre-dump state
writes the next probe and advances master_state by one; BLRM_BINLOGDUMP
hands the buffer to blr_handle_binlog_record.  States without a case
(including BLRM_AUTHENTICATED) do nothing. -/
def blr_master_switch (r : RouterInstance) (buf : Chain) : RouterInstance × MasterEff :=
  if r.master_state = BLRM_TIMESTAMP then
    ({ r with master_state := BLRM_SERVERID },
     { writes := [blr_make_query qServerId], consumed := [(buf, (buf.headD []).length)] })
  else if r.master_state = BLRM_SERVERID then
    ({ r with
       master_state := BLRM_HBPERIOD
       saved_master := { r.saved_master with server_id := some buf } },
     { writes := [blr_make_query qHbPeriod] })
  else if r.master_state = BLRM_HBPERIOD then
    ({ r with
       master_state := BLRM_CHKSUM1
       saved_master := { r.saved_master with heartbeat := some buf } },
     { writes := [blr_make_query qChksum1] })
  else if r.master_state = BLRM_CHKSUM1 then
    ({ r with
       master_state := BLRM_CHKSUM2
       saved_master := { r.saved_master with chksum1 := some buf } },
     { writes := [blr_make_query qChksum2] })
  else if r.master_state = BLRM_CHKSUM2 then
    ({ r with
       master_state := BLRM_GTIDMODE
       saved_master := { r.saved_master with chksum2 := some buf } },
     { writes := [blr_make_query qGtidMode] })
  else if r.master_state = BLRM_GTIDMODE then
    ({ r with
       master_state := BLRM_MUUID
       saved_master := { r.saved_master with gtid_mode := some buf } },
     { writes := [blr_make_query qMUuid] })
  else if r.master_state = BLRM_MUUID then
    ({ r with
       master_state := BLRM_SUUID
       saved_master := { r.saved_master with uuid := some buf } },
     { writes := [blr_make_query (qSUuid r.uuid)] })
  else if r.master_state = BLRM_SUUID then
    ({ r with
       master_state := BLRM_LATIN1
       saved_master := { r.saved_master with setslaveuuid := some buf } },
     { writes := [blr_make_query qLatin1] })
  else if r.master_state = BLRM_LATIN1 then
    ({ r with
       master_state := BLRM_REGISTER
       saved_master := { r.saved_master with setnames := some buf } },
     { writes := [blr_make_registration r] })
  else if r.master_state = BLRM_REGISTER then
    ({ r with master_state := BLRM_BINLOGDUMP }, { writes := [blr_make_binlog_dump r] })
  else if r.master_state = BLRM_BINLOGDUMP then
    let out := blr_handle_binlog_record r buf
    (out.router, { ingested := [buf], processed := out.processed, eventEffs := out.effs })
  else (r, {})

/-- Models the do-while loop of blr_master_response: process the delivered
buffer through the switch, then keep popping the head of the queue and
processing it until the queue is empty.  Dequeued buffers go straight to
the switch (the error-marker and state-range checks sit before the loop
and are applied only to the buffer delivered from outside). -/
def blr_master_drain : RouterInstance → Chain → List Chain → RouterInstance × MasterEff
  | r, buf, queue =>
    let (r1, eff) := blr_master_switch r buf
    match queue with
    | [] => (r1, eff)
    | b :: rest =>
      let (r2, eff2) := blr_master_drain r1 b rest
      (r2, mergeEff eff eff2)

/-- Models blr_master_response: under the lock, if another thread is inside
the pipeline append the buffer to the queue and return; otherwise take the
gate.  An out-of-range master_state or a response carrying the MySQL
error-packet marker is consumed whole and the gate released with no other
action.  Otherwise run the state machine on the buffer and then on every
queued buffer, and release the gate. -/
def blr_master_response (r : RouterInstance) (buf : Chain) : RouterInstance × MasterEff :=
  if r.active_logs then ({ r with queue := r.queue ++ [buf] }, {})
  else if BLRM_MAXSTATE < r.master_state then
    ({ r with active_logs := false }, { consumed := [(buf, gwbuf_length buf)] })
  else if MYSQL_RESPONSE_ERR buf then
    ({ r with active_logs := false }, { consumed := [(buf, gwbuf_length buf)] })
  else
    let (r1, eff) := blr_master_drain { r with active_logs := true, queue := [] } buf r.queue
    ({ r1 with active_logs := false }, eff)

/-- Models blr_start_master (the part relevant to the state machine): set
BLRM_AUTHENTICATED, write the SELECT UNIX_TIMESTAMP() probe and move to
BLRM_TIMESTAMP. -/
def blr_start_master (r : RouterInstance) : RouterInstance × MasterEff :=
  ({ r with master_state := BLRM_TIMESTAMP }, { writes := [blr_make_query qTimestamp] })

/-- Feeds a sequence of delivery segments, one call of
blr_handle_binlog_record per segment, concatenating the processed packet
lists; the ingest pipeline as exercised by a chunked byte stream. -/
def blr_feed (router : RouterInstance) : List Segment → RouterInstance × List (List Nat)
  | [] => (router, [])
  | seg :: rest =>
    let out := blr_handle_binlog_record router [seg]
    let next := blr_feed out.router rest
    (next.1, out.processed ++ next.2)

/-- Folds blr_distribute_binlog_record over a stream of events: the
distribution half of ingesting a sequence of binlog records.  Returns the
final router and, per event, the per-slave send results. -/
def distributeStream (router : RouterInstance) :
    List (REP_HEADER × List Nat) → RouterInstance × List (List (Option (List Nat)))
  | [] => (router, [])
  | (hdr, ptr) :: evs =>
    let step := blr_distribute_binlog_record router hdr ptr
    let rest := distributeStream step.1 evs
    (rest.1, step.2 :: rest.2)

/-- The action of a distributed stream on a single slave: fold of the
per-slave loop body, collecting the packets actually sent to it. -/
def distributeSlaveStream (slave : ROUTER_SLAVE) :
    List (REP_HEADER × List Nat) → ROUTER_SLAVE × List (List Nat)
  | [] => (slave, [])
  | (hdr, ptr) :: evs =>
    let step := blr_distribute_slave hdr ptr slave
    let rest := distributeSlaveStream step.1 evs
    match step.2.1 with
    | some pkt => (rest.1, pkt :: rest.2)
    | none => rest

/-- The packets slave number i observes across a distributed stream. -/
def observedPackets (router : RouterInstance) (evs : List (REP_HEADER × List Nat))
    (i : Nat) : List (List Nat) :=
  ((distributeStream router evs).2.map (fun sends => sends.getD i none)).filterMap id

/-- Ideal byte consumption across a chain, a specification device for the
reassembly claim: drop n bytes from the front of the chain, removing
emptied segments. -/
def chainDrop : Chain → Nat → Chain
  | c, 0 => c
  | [], _ => []
  | a :: rest, n => if n < a.length then a.drop n :: rest else chainDrop rest (n - a.length)

/-- Number of bytes in the first two segments of a chain. -/
def seg2len : Chain → Nat
  | [] => 0
  | [a] => a.length
  | a :: b :: _ => a.length + b.length

/-- Specification predicate for the reassembly claim: the chain carries,
aligned at its front, the given whole packets followed by the trailing
fragment f.  Every packet has a length field matching its byte length, is
at least 25 bytes long and lies within the first two segments of the chain
at the moment the loop reaches it; the fragment occupies at most two
segments and is shorter than the packet its own length field announces (or
too short for the loop guard); segments are nonempty. -/
inductive GoodChain : List (List Nat) → List Nat → Chain → Prop
  | nil (f : List Nat) (c : Chain) :
      c.flatten = f → c.length ≤ 2 → (∀ s ∈ c, s ≠ []) →
      (f.length ≤ 24 ∨ f.length < extract_field f 24 + 4) →
      GoodChain [] f c
  | cons (p : List Nat) (ps : List (List Nat)) (f : List Nat) (c : Chain) :
      p.length = extract_field p 24 + 4 →
      25 ≤ p.length →
      (c.flatten).take p.length = p →
      p.length ≤ seg2len c →
      (∀ s ∈ c, s ≠ []) →
      GoodChain ps f (chainDrop c p.length) →
      GoodChain (p :: ps) f c

/-- A concrete router fixture used by the witness instantiations. -/
def mkRouter (st : Nat) (slaves : List ROUTER_SLAVE) : RouterInstance :=
  { master_state := st
    uuid := "aabbccdd-eeff-0011-2233-445566778899"
    serverid := 1234
    masterid := 5678
    port := 3306
    binlog_name := strncpyBytes (strBytes "mysql-bin.000001") 40
    binlog_position := 4
    saved_master := {}
    residual := []
    slaves := slaves
    stats := {}
    active_logs := false
    queue := [] }

/-- Fixture: a rotate event body as blr_rotate_event receives it (after
the five MySQL framing bytes): 19 event header bytes, the position halves
4 (low) and 1 (high) announcing position 2 ^ 32 + 4, then the new file
name mysql-bin.000002. -/
def rotPtr : List Nat :=
  List.replicate 19 0 ++ [4, 0, 0, 0, 1, 0, 0, 0]
    ++ strncpyBytes (strBytes "mysql-bin.000002") 40

/-- Fixture: the replication header of the rotate event fixture. -/
def rotHdr : REP_HEADER := ⟨68, 0, 0, 0, ROTATE_EVENT, 1, 67, 0, 0⟩

/-- Fixture: a complete binlog event packet whose flags word is 0x21,
that is LOG_EVENT_ARTIFICIAL_F together with a second flag bit: framing
(payload length 31, sequence 1, OK 0), then a QUERY_EVENT header with
event_size 30, next_pos 1030 and flags 0x21, then 11 body bytes. -/
def artPtr : List Nat :=
  [31, 0, 0, 1, 0] ++ [0, 0, 0, 0] ++ [2] ++ [1, 0, 0, 0] ++ [30, 0, 0, 0]
    ++ [6, 4, 0, 0] ++ [0x21, 0] ++ List.replicate 11 7

/-- Fixture: a complete artificial rotate event packet with flags exactly
LOG_EVENT_ARTIFICIAL_F: framing (payload length 44, sequence 1, OK 0),
rotate header with event_size 43, next_pos 0, flags 0x20, then the
position halves 4 and 0 and the 16-byte name mysql-bin.000002. -/
def artRotPtr : List Nat :=
  [44, 0, 0, 1, 0] ++ [0, 0, 0, 0] ++ [4] ++ [1, 0, 0, 0] ++ [43, 0, 0, 0]
    ++ [0, 0, 0, 0] ++ [0x20, 0] ++ [4, 0, 0, 0, 0, 0, 0, 0]
    ++ strBytes "mysql-bin.000002"

/-- Fixture: a whole wellformed MySQL packet of total length 24 (payload
length field 20). -/
def pkt24 : List Nat := [20, 0, 0, 1, 0] ++ List.replicate 19 6

/-- Fixture: a whole wellformed MySQL packet of total length 25 (payload
length field 21). -/
def pkt25 : List Nat := [21, 0, 0, 1, 0] ++ List.replicate 20 6

/-- Fixture: a chunking of pkt25 followed by the two-byte fragment
[21, 0] into three delivery segments of sizes 10, 16 and 1. -/
def segs8 : List Segment := [pkt25.take 10, pkt25.drop 10 ++ [21], [0]]

/-! ### Helper lemmas -/

theorem encode_bytes_length (v k : Nat) : (encode_bytes v k).length = k := by
  induction k generalizing v with
  | zero => rfl
  | succ k ih => simp [encode_bytes, ih]

theorem extract_encode_bytes (k : Nat) :
    ∀ v : Nat, v < 256 ^ k → extract_bytes (encode_bytes v k) k = v := by
  induction k with
  | zero =>
    intro v hv
    simp [pow_zero] at hv
    simpa [encode_bytes, extract_bytes] using hv.symm
  | succ k ih =>
    intro v hv
    have hdiv : v / 256 < 256 ^ k := by
      rw [Nat.div_lt_iff_lt_mul (by norm_num)]
      calc v < 256 ^ (k + 1) := hv
        _ = 256 ^ k * 256 := by ring
    simp only [encode_bytes, extract_bytes, List.headD_cons, List.tail_cons]
    rw [ih _ hdiv]
    omega

theorem readBytes_succ (l : List Nat) (n : Nat) :
    readBytes l (n + 1) = l.headD 0 :: readBytes l.tail n := by
  simp only [readBytes, List.range_succ_eq_map, List.map_cons, List.map_map]
  congr 1
  · cases l <;> rfl
  · apply List.map_congr_left
    intro i _
    cases l <;> simp [List.getD]

theorem readBytes_length (l : List Nat) (n : Nat) : (readBytes l n).length = n := by
  simp [readBytes]

theorem readBytes_eq_take (l : List Nat) (n : Nat) (h : n ≤ l.length) :
    readBytes l n = l.take n := by
  induction n generalizing l with
  | zero => simp [readBytes]
  | succ n ih =>
    cases l with
    | nil => simp at h
    | cons a t =>
      rw [readBytes_succ]
      simp only [List.headD_cons, List.tail_cons, List.take_succ_cons]
      rw [ih t (by simpa using h)]

theorem strncpyBytes_length (src : List Nat) (n : Nat) : (strncpyBytes src n).length = n := by
  induction n generalizing src with
  | zero => cases src <;> simp [strncpyBytes]
  | succ n ih =>
    cases src with
    | nil => simp [strncpyBytes]
    | cons b rest =>
      by_cases hb : b = 0 <;> simp [strncpyBytes, hb, ih]

/-! ### C7: the integer codecs are mutually inverse -/

/-- C7: for every width w in {8, 16, 24, 32} and every unsigned value
v < 2 ^ w, extracting w bits from the byte sequence produced by encoding v
into w bits yields v again: encode_value and extract_field are mutually
inverse little-endian codecs at those widths. -/
theorem encode_extract_inverse (w v : Nat)
    (hw : w = 8 ∨ w = 16 ∨ w = 24 ∨ w = 32) (hv : v < 2 ^ w) :
    extract_field (encode_value v w) w = v := by
  rcases hw with h | h | h | h <;> subst h <;>
    exact extract_encode_bytes _ v (by norm_num at hv ⊢; omega)

/-- Witness for C7: the codecs are inverse at width 24 on 0x123456. -/
theorem encode_extract_inverse_witness :
    extract_field (encode_value 0x123456 24) 24 = 0x123456 :=
  encode_extract_inverse 24 0x123456 (by decide) (by decide)

/-! ### C9: the binlog dump builder -/

/-- C9: blr_make_binlog_dump encodes payload length 0x1b and the
COM_BINLOG_DUMP command as documented, but it stores
15 + BINLOG_FNAMELEN = 55 bytes, while its own allocation
(gwbuf_alloc(0x1b + 4)) is only 31 bytes: the strncpy of the 40-byte
binlog name field at offset 15 runs past the end of the buffer, so not
every stored byte lies within the allocation. -/
theorem binlog_dump_layout_and_overflow (r : RouterInstance) :
    extract_field (blr_make_binlog_dump r) 24 = 0x1b
    ∧ (blr_make_binlog_dump r).getD 3 0 = 0
    ∧ (blr_make_binlog_dump r).getD 4 0 = COM_BINLOG_DUMP
    ∧ (blr_make_binlog_dump r).length = 15 + BINLOG_FNAMELEN
    ∧ blr_make_binlog_dump_alloc = 0x1b + 4
    ∧ blr_make_binlog_dump_alloc < (blr_make_binlog_dump r).length := by
  have henc : encode_value 0x1b 24 = [27, 0, 0] := rfl
  refine ⟨?_, ?_, ?_, ?_, rfl, ?_⟩
  · simp [blr_make_binlog_dump, henc, extract_field, extract_bytes]
  · simp [blr_make_binlog_dump, henc]
  · simp [blr_make_binlog_dump, henc]
  · simp [blr_make_binlog_dump, encode_bytes_length, strncpyBytes_length,
      encode_value, BINLOG_FNAMELEN]
  · simp [blr_make_binlog_dump, blr_make_binlog_dump_alloc, encode_bytes_length,
      strncpyBytes_length, encode_value, BINLOG_FNAMELEN]

/-! ### C5: rotate event handling -/

/-- C5 evaluated at the failing input: for a rotate event announcing
position 2 ^ 32 + 4 (low half 4, high half 1) and a new name, the model of
blr_rotate_event increments n_rotates and rotates the file component to
the new name, but at position 4: the C expression
extract_field(ptr + 4, 32) << 32 shifts a uint32_t by 32 bits before the
64-bit addition, so the high half of the claimed 64-bit position - whose
true assembled value is computed alongside - is lost. -/
theorem rotate_event_high_half_lost :
    (blr_rotate_event (mkRouter BLRM_BINLOGDUMP []) rotPtr rotHdr).1.binlog_position = 4
    ∧ (blr_rotate_event (mkRouter BLRM_BINLOGDUMP []) rotPtr rotHdr).2
        = [(strncpyBytes (strBytes "mysql-bin.000002") 40, 4)]
    ∧ (blr_rotate_event (mkRouter BLRM_BINLOGDUMP []) rotPtr rotHdr).1.stats.n_rotates = 1
    ∧ (blr_rotate_event (mkRouter BLRM_BINLOGDUMP []) rotPtr rotHdr).1.binlog_name
        = strncpyBytes (strBytes "mysql-bin.000002") 40
    ∧ extract_field (rotPtr.drop 19) 32 + 2 ^ 32 * extract_field ((rotPtr.drop 19).drop 4) 32
        = 2 ^ 32 + 4
    ∧ (2 : Nat) ^ 32 + 4 ≠ 4 := by
  refine ⟨by decide, by decide, by decide, by decide, by decide, by decide⟩

/-! ### C2: fan-out gating -/

theorem usub32_eq (a b : Nat) (hb : b ≤ a) (ha : a < 2 ^ 32) : usub32 a b = a - b := by
  have h32 : (2 : Nat) ^ 32 = 4294967296 := by norm_num
  unfold usub32
  rw [h32] at ha ⊢
  omega

/-- C2: during distribution of an event with header hdr, the distributor
applies the per-slave step to every slave of the list, and under that step
a slave is sent the event iff its binlog_pos equals next_pos - event_size
at the moment of distribution; a receiving slave ends with
binlog_pos = next_pos; a non-matching slave is skipped with binlog_pos and
seqno unchanged. -/
theorem slave_receives_iff_position_matches
    (router : RouterInstance) (hdr : REP_HEADER) (ptr : List Nat)
    (h32 : hdr.next_pos < 2 ^ 32) (hes : hdr.event_size ≤ hdr.next_pos) :
    (blr_distribute_binlog_record router hdr ptr).1.slaves
        = router.slaves.map (fun s => (blr_distribute_slave hdr ptr s).1)
    ∧ (blr_distribute_binlog_record router hdr ptr).2
        = router.slaves.map (fun s => (blr_distribute_slave hdr ptr s).2.1)
    ∧ ∀ s : ROUTER_SLAVE,
        (((blr_distribute_slave hdr ptr s).2.1).isSome = true
            ↔ s.binlog_pos = hdr.next_pos - hdr.event_size)
        ∧ (s.binlog_pos = hdr.next_pos - hdr.event_size →
            (blr_distribute_slave hdr ptr s).1.binlog_pos = hdr.next_pos)
        ∧ (s.binlog_pos ≠ hdr.next_pos - hdr.event_size →
            (blr_distribute_slave hdr ptr s).1 = s
            ∧ (blr_distribute_slave hdr ptr s).2.1 = none) := by
  have hsub : usub32 hdr.next_pos hdr.event_size = hdr.next_pos - hdr.event_size :=
    usub32_eq _ _ hes h32
  refine ⟨by simp [blr_distribute_binlog_record, Function.comp],
    by simp [blr_distribute_binlog_record, Function.comp], ?_⟩
  intro s
  by_cases h : s.binlog_pos = hdr.next_pos - hdr.event_size
  · simp [blr_distribute_slave, hsub, h]
  · simp [blr_distribute_slave, hsub, h]

/-- Witness for C2: with next_pos 1050 and event_size 50, the slave at
position 1000 receives the event and ends at 1050, while the slave at 999
is skipped unchanged. -/
theorem slave_receives_iff_position_matches_witness :
    ((blr_distribute_slave ⟨51, 0, 0, 0, 2, 1, 50, 1050, 0⟩ [] ⟨1000, 5⟩).2.1).isSome = true
    ∧ (blr_distribute_slave ⟨51, 0, 0, 0, 2, 1, 50, 1050, 0⟩ [] ⟨1000, 5⟩).1.binlog_pos = 1050
    ∧ (blr_distribute_slave ⟨51, 0, 0, 0, 2, 1, 50, 1050, 0⟩ [] ⟨999, 7⟩).1 = ⟨999, 7⟩ := by
  obtain ⟨-, -, hs⟩ := slave_receives_iff_position_matches
    (mkRouter BLRM_BINLOGDUMP [⟨1000, 5⟩, ⟨999, 7⟩])
    ⟨51, 0, 0, 0, 2, 1, 50, 1050, 0⟩ [] (by decide) (by decide)
  refine ⟨(hs ⟨1000, 5⟩).1.mpr (by decide), (hs ⟨1000, 5⟩).2.1 (by decide),
    ((hs ⟨999, 7⟩).2.2 (by decide)).1⟩

/-! ### C3: packet framing and sequence runs -/

theorem getD_map_of_lt {α β : Type} (f : α → β) (l : List α) (i : Nat) (d : α) (db : β)
    (hi : i < l.length) : (l.map f).getD i db = f (l.getD i d) := by
  rw [List.getD_eq_getElem?_getD, List.getD_eq_getElem?_getD, List.getElem?_map,
    List.getElem?_eq_getElem hi]
  simp

theorem distribute_slave_sent (hdr : REP_HEADER) (ptr : List Nat) (s : ROUTER_SLAVE)
    (hm : s.binlog_pos = usub32 hdr.next_pos hdr.event_size) :
    (blr_distribute_slave hdr ptr s).2.1
      = some (encode_value (hdr.event_size + 1) 24 ++ [s.seqno % 256, 0]
          ++ readBytes ptr hdr.event_size)
    ∧ (blr_distribute_slave hdr ptr s).1
      = ⟨hdr.next_pos, (s.seqno + 1) % 256⟩ := by
  simp [blr_distribute_slave, hm]

theorem distribute_slave_skip (hdr : REP_HEADER) (ptr : List Nat) (s : ROUTER_SLAVE)
    (hm : ¬ s.binlog_pos = usub32 hdr.next_pos hdr.event_size) :
    (blr_distribute_slave hdr ptr s).2.1 = none
    ∧ (blr_distribute_slave hdr ptr s).1 = s := by
  simp [blr_distribute_slave, hm]

theorem sent_packet_getD3 (v b : Nat) (rest : List Nat) :
    (encode_value v 24 ++ [b, 0] ++ rest).getD 3 0 = b := by
  simp [encode_value, encode_bytes, List.getD]

theorem slaveStream_seqnos (evs : List (REP_HEADER × List Nat)) :
    ∀ s : ROUTER_SLAVE, s.seqno < 256 →
      ((distributeSlaveStream s evs).2.map (fun p => p.getD 3 0))
        = (List.range (distributeSlaveStream s evs).2.length).map
            (fun k => (s.seqno + k) % 256) := by
  induction evs with
  | nil =>
    intro s hs
    simp [distributeSlaveStream]
  | cons ev evs ih =>
    intro s hs
    obtain ⟨hdr, ptr⟩ := ev
    by_cases h : s.binlog_pos = usub32 hdr.next_pos hdr.event_size
    · obtain ⟨hsent, hnext⟩ := distribute_slave_sent hdr ptr s h
      simp only [distributeSlaveStream, hsent, hnext]
      have ihs := ih ⟨hdr.next_pos, (s.seqno + 1) % 256⟩ (Nat.mod_lt _ (by norm_num))
      simp only [List.map_cons, List.length_cons, ihs, sent_packet_getD3]
      rw [List.range_succ_eq_map, List.map_cons, List.map_map]
      refine List.cons_eq_cons.mpr ⟨by omega, ?_⟩
      apply List.map_congr_left
      intro k _
      simp only [Function.comp_apply]
      omega
    · obtain ⟨hsent, hsame⟩ := distribute_slave_skip hdr ptr s h
      simp only [distributeSlaveStream, hsent, hsame]
      exact ih s hs

theorem observed_proj (evs : List (REP_HEADER × List Nat)) :
    ∀ (router : RouterInstance) (i : Nat), i < router.slaves.length →
      observedPackets router evs i
        = (distributeSlaveStream (router.slaves.getD i default) evs).2 := by
  induction evs with
  | nil =>
    intro router i hi
    simp [observedPackets, distributeStream, distributeSlaveStream]
  | cons ev evs ih =>
    intro router i hi
    obtain ⟨hdr, ptr⟩ := ev
    have hsend : ((blr_distribute_binlog_record router hdr ptr).2).getD i none
        = (blr_distribute_slave hdr ptr (router.slaves.getD i default)).2.1 := by
      simp only [blr_distribute_binlog_record]
      rw [List.map_map]
      exact getD_map_of_lt _ _ i default none hi
    have hslave : ((blr_distribute_binlog_record router hdr ptr).1).slaves.getD i default
        = (blr_distribute_slave hdr ptr (router.slaves.getD i default)).1 := by
      simp only [blr_distribute_binlog_record]
      rw [List.map_map]
      exact getD_map_of_lt _ _ i default default hi
    have hlen : ((blr_distribute_binlog_record router hdr ptr).1).slaves.length
        = router.slaves.length := by
      simp [blr_distribute_binlog_record]
    have ihr := ih (blr_distribute_binlog_record router hdr ptr).1 i (by omega)
    rw [hslave] at ihr
    simp only [observedPackets, distributeStream, List.map_cons, List.filterMap_cons,
      distributeSlaveStream] at ihr ⊢
    rw [hsend]
    cases hopt : (blr_distribute_slave hdr ptr (router.slaves.getD i default)).2.1 with
    | none => simpa [hopt] using ihr
    | some pkt => simpa [hopt] using congrArg (fun l => pkt :: l) ihr

/-- C3: a packet synthesized for a slave has total size event_size + 5: a
24-bit little-endian length field holding event_size + 1, the current
one-byte sequence id of the slave (the stored seqno advancing by one
modulo 256), an OK byte 0, then event_size bytes copied verbatim from the
raw event; consequently, across any event stream, the sequence id bytes a
slave observes form a strictly increasing modulo-256 run with step 1
starting from its current value. -/
theorem slave_packet_framing_and_seqno_run :
    (∀ (hdr : REP_HEADER) (ptr : List Nat) (s : ROUTER_SLAVE),
      s.binlog_pos = usub32 hdr.next_pos hdr.event_size →
      hdr.event_size ≤ ptr.length →
      ∃ pkt, (blr_distribute_slave hdr ptr s).2.1 = some pkt
        ∧ pkt.length = hdr.event_size + 5
        ∧ pkt.take 3 = encode_value (hdr.event_size + 1) 24
        ∧ pkt.getD 3 0 = s.seqno % 256
        ∧ pkt.getD 4 0 = 0
        ∧ pkt.drop 5 = ptr.take hdr.event_size
        ∧ (blr_distribute_slave hdr ptr s).1.seqno = (s.seqno + 1) % 256)
    ∧ ∀ (router : RouterInstance) (evs : List (REP_HEADER × List Nat)) (i : Nat),
        i < router.slaves.length →
        (router.slaves.getD i default).seqno < 256 →
        (observedPackets router evs i).map (fun p => p.getD 3 0)
          = (List.range (observedPackets router evs i).length).map
              (fun k => ((router.slaves.getD i default).seqno + k) % 256) := by
  constructor
  · intro hdr ptr s hm hlen
    obtain ⟨hsent, hnext⟩ := distribute_slave_sent hdr ptr s hm
    refine ⟨_, hsent, ?_, ?_, sent_packet_getD3 _ _ _, ?_, ?_, by rw [hnext]⟩
    · simp [encode_value, encode_bytes, readBytes_length]
    · simp [encode_value, encode_bytes]
    · simp [encode_value, encode_bytes, List.getD]
    · rw [readBytes_eq_take _ _ hlen]
      simp [encode_value, encode_bytes]
  · intro router evs i hi hs
    rw [observed_proj evs router i hi]
    exact slaveStream_seqnos evs _ hs

/-- Witness for C3: a slave with seqno 254 receiving two consecutive
events observes sequence ids 254 and 255, the modulo-256 run from its
value; and the framing facts hold at the concrete event. -/
theorem slave_packet_framing_and_seqno_run_witness :
    ((observedPackets (mkRouter BLRM_BINLOGDUMP [⟨1000, 254⟩])
        [(⟨51, 0, 0, 0, 2, 1, 50, 1050, 0⟩, List.replicate 50 7),
         (⟨31, 0, 0, 0, 2, 1, 30, 1080, 0⟩, List.replicate 30 9)] 0).map
        (fun p => p.getD 3 0)
      = (List.range (observedPackets (mkRouter BLRM_BINLOGDUMP [⟨1000, 254⟩])
          [(⟨51, 0, 0, 0, 2, 1, 50, 1050, 0⟩, List.replicate 50 7),
           (⟨31, 0, 0, 0, 2, 1, 30, 1080, 0⟩, List.replicate 30 9)] 0).length).map
          (fun k => (254 + k) % 256))
    ∧ (blr_distribute_slave ⟨51, 0, 0, 0, 2, 1, 50, 1050, 0⟩ (List.replicate 50 7)
        ⟨1000, 254⟩).1.seqno = (254 + 1) % 256 := by
  constructor
  · have h := slave_packet_framing_and_seqno_run.2
      (mkRouter BLRM_BINLOGDUMP [⟨1000, 254⟩])
      [(⟨51, 0, 0, 0, 2, 1, 50, 1050, 0⟩, List.replicate 50 7),
       (⟨31, 0, 0, 0, 2, 1, 30, 1080, 0⟩, List.replicate 30 9)] 0
      (by decide) (by decide)
    simpa using h
  · obtain ⟨pkt, h1, h2, h3, h4, h5, h6, h7⟩ := slave_packet_framing_and_seqno_run.1
      ⟨51, 0, 0, 0, 2, 1, 50, 1050, 0⟩ (List.replicate 50 7) ⟨1000, 254⟩
      (by decide) (by decide)
    exact h7

/-! ### C4: artificial events -/

/-- Counterexample to C4 as stated: an ingested event whose flags field
has the LOG_EVENT_ARTIFICIAL_F bit (bit 5) set together with another flag
bit (flags = 0x21) is nevertheless written to the binlog file and fanned
out to a matching slave, because the code compares the flags word for
equality with LOG_EVENT_ARTIFICIAL_F instead of testing the bit. -/
theorem artificial_flag_counterexample :
    Nat.testBit (blr_extract_header artPtr).flags 5 = true
    ∧ LOG_EVENT_ARTIFICIAL_F = 2 ^ 5
    ∧ (blr_extract_header artPtr).ok = 0
    ∧ (blr_handle_event (mkRouter BLRM_BINLOGDUMP [⟨1000, 0⟩]) artPtr).2.fileWrites ≠ []
    ∧ ((blr_handle_event (mkRouter BLRM_BINLOGDUMP [⟨1000, 0⟩]) artPtr).2.sends.filterMap
        id).length = 1 := by
  refine ⟨by decide, by decide, by decide, by decide, by decide⟩

/-- C4 amended: for every ingested event with ok = 0 whose flags word
equals LOG_EVENT_ARTIFICIAL_F exactly, which is neither a heartbeat nor a
fake format description event, the ingest writes nothing to the binlog
file and fans out to no slave; if the event is a rotate, rotate handling
is still invoked (name, position, rotate count and the file rotation
effect are exactly those of blr_rotate_event); all router state other
than the statistics and, via rotate, binlog_name and binlog_position is
unchanged.  An event carrying the artificial bit alongside other flag
bits is instead processed as an ordinary event (see the
counterexample). -/
theorem artificial_event_skips_write_and_fanout
    (r : RouterInstance) (ptr : List Nat)
    (hok : (blr_extract_header ptr).ok = 0)
    (hart : (blr_extract_header ptr).flags = LOG_EVENT_ARTIFICIAL_F)
    (hhb : (blr_extract_header ptr).event_type ≠ HEARTBEAT_EVENT)
    (hfde : ¬ ((blr_extract_header ptr).event_type = FORMAT_DESCRIPTION_EVENT
        ∧ (blr_extract_header ptr).next_pos = 0)) :
    (blr_handle_event r ptr).2.fileWrites = []
    ∧ (blr_handle_event r ptr).2.sends = []
    ∧ (blr_handle_event r ptr).1.slaves = r.slaves
    ∧ (blr_handle_event r ptr).1.saved_master = r.saved_master
    ∧ (blr_handle_event r ptr).1.residual = r.residual
    ∧ (blr_handle_event r ptr).1.master_state = r.master_state
    ∧ (blr_handle_event r ptr).1.queue = r.queue
    ∧ (blr_handle_event r ptr).1.active_logs = r.active_logs
    ∧ (blr_handle_event r ptr).1.stats.n_binlogs = r.stats.n_binlogs + 1
    ∧ ((blr_extract_header ptr).event_type ≠ ROTATE_EVENT →
        (blr_handle_event r ptr).1.binlog_name = r.binlog_name
        ∧ (blr_handle_event r ptr).1.binlog_position = r.binlog_position
        ∧ (blr_handle_event r ptr).1.stats.n_rotates = r.stats.n_rotates
        ∧ (blr_handle_event r ptr).2.fileRotates = [])
    ∧ ((blr_extract_header ptr).event_type = ROTATE_EVENT →
        (blr_handle_event r ptr).1.binlog_name
            = (blr_rotate_event r (ptr.drop 5) (blr_extract_header ptr)).1.binlog_name
        ∧ (blr_handle_event r ptr).1.binlog_position
            = (blr_rotate_event r (ptr.drop 5) (blr_extract_header ptr)).1.binlog_position
        ∧ (blr_handle_event r ptr).1.stats.n_rotates
            = (blr_rotate_event r (ptr.drop 5) (blr_extract_header ptr)).1.stats.n_rotates
        ∧ (blr_handle_event r ptr).2.fileRotates
            = (blr_rotate_event r (ptr.drop 5) (blr_extract_header ptr)).2) := by
  have hartne : ¬ (blr_extract_header ptr).flags ≠ LOG_EVENT_ARTIFICIAL_F := by
    simp [hart]
  by_cases hrot : (blr_extract_header ptr).event_type = ROTATE_EVENT
  · by_cases hlt : (blr_extract_header ptr).event_type < 0x24
    · by_cases hcmp : strncmpEq r.binlog_name
        (readBytes (List.drop 32 ptr) BINLOG_FNAMELEN) BINLOG_FNAMELEN = true
      all_goals
        simp [blr_handle_event, hok, hfde, hhb, hartne, hrot, hlt,
          blr_rotate_event, blr_file_rotate, hcmp, ROTATE_EVENT,
          FORMAT_DESCRIPTION_EVENT, HEARTBEAT_EVENT]
    · by_cases hcmp : strncmpEq r.binlog_name
        (readBytes (List.drop 32 ptr) BINLOG_FNAMELEN) BINLOG_FNAMELEN = true
      all_goals
        simp [blr_handle_event, hok, hfde, hhb, hartne, hrot, hlt,
          blr_rotate_event, blr_file_rotate, hcmp, ROTATE_EVENT,
          FORMAT_DESCRIPTION_EVENT, HEARTBEAT_EVENT]
  · by_cases hlt : (blr_extract_header ptr).event_type < 0x24
    all_goals
      simp [blr_handle_event, hok, hfde, hhb, hartne, hrot, hlt]

/-- Witness for the amended C4 at a concrete artificial rotate event: no
file write, no fan-out even with a matching slave, and rotate handling is
invoked exactly as blr_rotate_event prescribes. -/
theorem artificial_event_skips_write_and_fanout_witness :
    (blr_handle_event (mkRouter BLRM_BINLOGDUMP [⟨1000, 0⟩]) artRotPtr).2.fileWrites = []
    ∧ (blr_handle_event (mkRouter BLRM_BINLOGDUMP [⟨1000, 0⟩]) artRotPtr).2.sends = []
    ∧ (blr_handle_event (mkRouter BLRM_BINLOGDUMP [⟨1000, 0⟩]) artRotPtr).2.fileRotates
        = (blr_rotate_event (mkRouter BLRM_BINLOGDUMP [⟨1000, 0⟩]) (artRotPtr.drop 5)
            (blr_extract_header artRotPtr)).2
    ∧ (blr_handle_event (mkRouter BLRM_BINLOGDUMP [⟨1000, 0⟩]) artRotPtr).1.slaves
        = [⟨1000, 0⟩] := by
  obtain ⟨h1, h2, _, _, _, _, _, _, _, _, hr⟩ :=
    artificial_event_skips_write_and_fanout (mkRouter BLRM_BINLOGDUMP [⟨1000, 0⟩]) artRotPtr
      (by decide) (by decide) (by decide) (by decide)
  exact ⟨h1, h2, (hr (by decide)).2.2.2, by decide⟩

/-! ### C6: error packets and invalid states are dropped atomically -/

/-- C6: a master response carrying the MySQL error-packet marker,
delivered while the gate is free, is consumed whole (gwbuf_length bytes);
the returned router equals the incoming one - the gate ends released,
master_state is unchanged and no other field moves - and no packet is
written to the master, nothing is ingested; the identical atomic drop
happens when master_state lies outside its valid range. -/
theorem error_response_dropped (r : RouterInstance) (buf : Chain)
    (hfree : r.active_logs = false) :
    (MYSQL_RESPONSE_ERR buf = true →
      blr_master_response r buf = (r, { consumed := [(buf, gwbuf_length buf)] }))
    ∧ (BLRM_MAXSTATE < r.master_state →
      blr_master_response r buf = (r, { consumed := [(buf, gwbuf_length buf)] })) := by
  obtain ⟨ms, uu, sid, mid, po, bn, bp, sm, res, sl, st, al, qu⟩ := r
  simp only at hfree
  subst hfree
  constructor
  · intro herr
    by_cases hst : BLRM_MAXSTATE < ms
    · simp [blr_master_response, hst]
    · simp [blr_master_response, hst, herr]
  · intro hst
    simp [blr_master_response, hst]

/-- Witness for C6: a concrete error packet delivered in BLRM_CHKSUM1 is
dropped with the router unchanged, and so is a healthy buffer delivered
with master_state 12, outside the valid range. -/
theorem error_response_dropped_witness :
    blr_master_response (mkRouter BLRM_CHKSUM1 []) [[9, 0, 0, 1, 255, 169, 4, 85, 110]]
      = (mkRouter BLRM_CHKSUM1 [], { consumed := [([[9, 0, 0, 1, 255, 169, 4, 85, 110]], 9)] })
    ∧ blr_master_response (mkRouter 12 []) [[1, 0, 0, 0, 0]]
      = (mkRouter 12 [], { consumed := [([[1, 0, 0, 0, 0]], 5)] }) := by
  constructor
  · exact (error_response_dropped (mkRouter BLRM_CHKSUM1 [])
      [[9, 0, 0, 1, 255, 169, 4, 85, 110]] (by decide)).1 (by decide)
  · exact (error_response_dropped (mkRouter 12 []) [[1, 0, 0, 0, 0]] (by decide)).2 (by decide)

/-! ### C1: the pre-dump probe sequence -/

/-- Counterexample to C1 as stated: the non-error response processed in
state BLRM_REGISTER is retained in no saved_master slot, and it is not
consumed either - the code simply overwrites the buffer variable with the
binlog dump packet.  The state still advances to BLRM_BINLOGDUMP.  (C1
also counts nine COM_QUERY probes written by blr_master_response; the
amended theorem shows the function writes only the eight probes after
SELECT UNIX_TIMESTAMP(), which blr_start_master writes.) -/
theorem register_response_unsaved_counterexample :
    (blr_master_response (mkRouter BLRM_REGISTER []) [[1, 2, 3]]).1.saved_master
        = SavedMaster.mk none none none none none none none none none 0
    ∧ (blr_master_response (mkRouter BLRM_REGISTER []) [[1, 2, 3]]).2.consumed = []
    ∧ (blr_master_response (mkRouter BLRM_REGISTER []) [[1, 2, 3]]).2.ingested = []
    ∧ (blr_master_response (mkRouter BLRM_REGISTER []) [[1, 2, 3]]).1.master_state
        = BLRM_BINLOGDUMP := by
  refine ⟨by decide, by decide, by decide, by decide⟩

/-- C1 amended: with the gate free, an empty queue and a non-error
response buffer, blr_master_response advances master_state exactly one
step along TIMESTAMP, SERVERID, HBPERIOD, CHKSUM1, CHKSUM2, GTIDMODE,
MUUID, SUUID, LATIN1, REGISTER, BINLOGDUMP and writes exactly the next
probe: the eight remaining COM_QUERY probes in order (the first probe,
SELECT UNIX_TIMESTAMP(), is written by blr_start_master before any
response arrives), then the register-slave packet, then the binlog-dump
packet.  The TIMESTAMP response is discarded, the SERVERID through LATIN1
responses are retained in their designated saved_master slots, and the
REGISTER response is dropped without being saved or consumed.  Once
BLRM_BINLOGDUMP is reached the response is passed to binlog ingestion and
no packet is written to the master. -/
theorem master_response_probe_sequence (r : RouterInstance) (buf : Chain)
    (hfree : r.active_logs = false) (hq : r.queue = [])
    (hne : MYSQL_RESPONSE_ERR buf = false) :
    (r.master_state = BLRM_TIMESTAMP →
      blr_master_response r buf
        = ({ r with master_state := BLRM_SERVERID },
           { writes := [blr_make_query qServerId],
             consumed := [(buf, (buf.headD []).length)] }))
    ∧ (r.master_state = BLRM_SERVERID →
      blr_master_response r buf
        = ({ r with
             master_state := BLRM_HBPERIOD
             saved_master := { r.saved_master with server_id := some buf } },
           { writes := [blr_make_query qHbPeriod] }))
    ∧ (r.master_state = BLRM_HBPERIOD →
      blr_master_response r buf
        = ({ r with
             master_state := BLRM_CHKSUM1
             saved_master := { r.saved_master with heartbeat := some buf } },
           { writes := [blr_make_query qChksum1] }))
    ∧ (r.master_state = BLRM_CHKSUM1 →
      blr_master_response r buf
        = ({ r with
             master_state := BLRM_CHKSUM2
             saved_master := { r.saved_master with chksum1 := some buf } },
           { writes := [blr_make_query qChksum2] }))
    ∧ (r.master_state = BLRM_CHKSUM2 →
      blr_master_response r buf
        = ({ r with
             master_state := BLRM_GTIDMODE
             saved_master := { r.saved_master with chksum2 := some buf } },
           { writes := [blr_make_query qGtidMode] }))
    ∧ (r.master_state = BLRM_GTIDMODE →
      blr_master_response r buf
        = ({ r with
             master_state := BLRM_MUUID
             saved_master := { r.saved_master with gtid_mode := some buf } },
           { writes := [blr_make_query qMUuid] }))
    ∧ (r.master_state = BLRM_MUUID →
      blr_master_response r buf
        = ({ r with
             master_state := BLRM_SUUID
             saved_master := { r.saved_master with uuid := some buf } },
           { writes := [blr_make_query (qSUuid r.uuid)] }))
    ∧ (r.master_state = BLRM_SUUID →
      blr_master_response r buf
        = ({ r with
             master_state := BLRM_LATIN1
             saved_master := { r.saved_master with setslaveuuid := some buf } },
           { writes := [blr_make_query qLatin1] }))
    ∧ (r.master_state = BLRM_LATIN1 →
      blr_master_response r buf
        = ({ r with
             master_state := BLRM_REGISTER
             saved_master := { r.saved_master with setnames := some buf } },
           { writes := [blr_make_registration r] }))
    ∧ (r.master_state = BLRM_REGISTER →
      blr_master_response r buf
        = ({ r with master_state := BLRM_BINLOGDUMP },
           { writes := [blr_make_binlog_dump r] }))
    ∧ (r.master_state = BLRM_BINLOGDUMP →
      (blr_master_response r buf).2.writes = []
      ∧ (blr_master_response r buf).2.ingested = [buf]
      ∧ (blr_master_response r buf).2.processed
          = (blr_handle_binlog_record { r with active_logs := true } buf).processed
      ∧ (blr_master_response r buf).1
          = { (blr_handle_binlog_record { r with active_logs := true } buf).router with
              active_logs := false }) := by
  obtain ⟨ms, uu, sid, mid, po, bn, bp, sm, res, sl, st, al, qu⟩ := r
  simp only at hfree hq
  subst hfree
  subst hq
  refine ⟨?_, ?_, ?_, ?_, ?_, ?_, ?_, ?_, ?_, ?_, ?_⟩ <;> intro hms <;>
    simp only at hms <;> subst hms <;>
    simp [blr_master_response, blr_master_drain, blr_master_switch, hne,
      blr_make_registration, blr_make_binlog_dump,
      BLRM_TIMESTAMP, BLRM_SERVERID, BLRM_HBPERIOD, BLRM_CHKSUM1, BLRM_CHKSUM2,
      BLRM_GTIDMODE, BLRM_MUUID, BLRM_SUUID, BLRM_LATIN1, BLRM_REGISTER,
      BLRM_BINLOGDUMP, BLRM_MAXSTATE]

/-- Witness for the amended C1: a concrete non-error response in
BLRM_TIMESTAMP is consumed, the state advances to BLRM_SERVERID and
exactly the server-id probe is written. -/
theorem master_response_probe_sequence_witness :
    blr_master_response (mkRouter BLRM_TIMESTAMP []) [[7, 0, 0, 1, 0, 2, 49]]
      = ({ mkRouter BLRM_TIMESTAMP [] with master_state := BLRM_SERVERID },
         { writes := [blr_make_query qServerId],
           consumed := [([[7, 0, 0, 1, 0, 2, 49]], 7)] }) := by
  have h := (master_response_probe_sequence (mkRouter BLRM_TIMESTAMP [])
    [[7, 0, 0, 1, 0, 2, 49]] (by decide) (by decide) (by decide)).1 (by decide)
  simpa using h

/-! ### C10: dequeued buffers bypass the entry checks -/

/-- C10: a buffer taken from the overflow queue inside the processing loop
is handed directly to the state-machine switch; the error-marker and
state-range checks run only on the buffer delivered from outside, before
the loop.  Concretely: with the gate free, master_state = BLRM_SERVERID, a
non-error delivered buffer and a queued buffer carrying the error-packet
marker, the queued buffer is still processed as a normal response: the
machine advances two steps to BLRM_CHKSUM1 and retains the queued error
buffer as the saved heartbeat response, consuming nothing. -/
theorem queued_buffers_bypass_checks (r : RouterInstance) (buf q : Chain)
    (hfree : r.active_logs = false)
    (hstate : r.master_state = BLRM_SERVERID)
    (hne : MYSQL_RESPONSE_ERR buf = false)
    (hq : r.queue = [q])
    (hqerr : MYSQL_RESPONSE_ERR q = true) :
    (blr_master_response r buf).1.master_state = BLRM_CHKSUM1
    ∧ (blr_master_response r buf).1.saved_master.server_id = some buf
    ∧ (blr_master_response r buf).1.saved_master.heartbeat = some q
    ∧ (blr_master_response r buf).2.writes
        = [blr_make_query qHbPeriod, blr_make_query qChksum1]
    ∧ (blr_master_response r buf).2.consumed = [] := by
  obtain ⟨ms, uu, sid, mid, po, bn, bp, sm, res, sl, st, al, qu⟩ := r
  simp only at hfree hstate hq
  subst hfree
  subst hstate
  subst hq
  refine ⟨?_, ?_, ?_, ?_, ?_⟩ <;>
    simp [blr_master_response, blr_master_drain, blr_master_switch, mergeEff, hne,
      BLRM_SERVERID, BLRM_HBPERIOD, BLRM_CHKSUM1, BLRM_MAXSTATE]

/-- Witness for C10: concrete run in which the queued buffer carries the
error marker and is nevertheless saved as the heartbeat response while
the state advances two steps. -/
theorem queued_buffers_bypass_checks_witness :
    (blr_master_response { mkRouter BLRM_SERVERID [] with
        queue := [[[9, 0, 0, 1, 255, 169, 4, 85, 110]]] } [[5, 0, 0, 1, 0, 3]]).1.master_state
      = BLRM_CHKSUM1
    ∧ (blr_master_response { mkRouter BLRM_SERVERID [] with
        queue := [[[9, 0, 0, 1, 255, 169, 4, 85, 110]]] } [[5, 0, 0, 1, 0, 3]]).1.saved_master.heartbeat
      = some [[9, 0, 0, 1, 255, 169, 4, 85, 110]] := by
  have h := queued_buffers_bypass_checks
    { mkRouter BLRM_SERVERID [] with queue := [[[9, 0, 0, 1, 255, 169, 4, 85, 110]]] }
    [[5, 0, 0, 1, 0, 3]] [[9, 0, 0, 1, 255, 169, 4, 85, 110]]
    (by decide) (by decide) (by decide) (by decide) (by decide)
  exact ⟨h.1, h.2.2.1⟩

/-! ### C8: reassembly lemmas -/

theorem gwlen_cons (a : Segment) (c : Chain) :
    gwbuf_length (a :: c) = a.length + gwbuf_length c := by
  simp [gwbuf_length]

theorem gwlen_append (c d : Chain) :
    gwbuf_length (c ++ d) = gwbuf_length c + gwbuf_length d := by
  simp [gwbuf_length]

theorem gwlen_flatten (c : Chain) : c.flatten.length = gwbuf_length c := by
  simp [gwbuf_length]

theorem extract_bytes_append (l1 l2 : List Nat) (k : Nat) (h : k ≤ l1.length) :
    extract_bytes (l1 ++ l2) k = extract_bytes l1 k := by
  induction k generalizing l1 with
  | zero => rfl
  | succ k ih =>
    cases l1 with
    | nil => simp at h
    | cons x t =>
      simp only [List.cons_append, extract_bytes, List.headD_cons, List.tail_cons]
      rw [ih t (by simpa using h)]

theorem extract_bytes_take (l : List Nat) (m k : Nat) (h : k ≤ m) :
    extract_bytes (l.take m) k = extract_bytes l k := by
  by_cases hm : m ≤ l.length
  · conv_rhs => rw [← List.take_append_drop m l]
    rw [extract_bytes_append _ _ k (by simpa [List.length_take] using by omega)]
  · rw [List.take_of_length_le (by omega)]

theorem chainDrop_append_left (c d : Chain) (n : Nat) (h : n ≤ gwbuf_length c) :
    chainDrop (c ++ d) n = chainDrop c n ++ d := by
  induction c generalizing n with
  | nil =>
    simp [gwbuf_length] at h
    subst h
    simp [chainDrop]
  | cons a c ih =>
    cases n with
    | zero => simp [chainDrop]
    | succ n =>
      by_cases hn : n + 1 < a.length
      · simp [chainDrop, hn]
      · rw [gwlen_cons] at h
        simp only [List.cons_append, chainDrop, if_neg hn]
        exact ih (n + 1 - a.length) (by omega)

theorem chainDrop_nonempty (c : Chain) (n : Nat) (h : ∀ s ∈ c, s ≠ []) :
    ∀ s ∈ chainDrop c n, s ≠ [] := by
  induction c generalizing n with
  | nil =>
    cases n <;> simp [chainDrop]
  | cons a c ih =>
    cases n with
    | zero => simpa [chainDrop] using h
    | succ n =>
      by_cases hn : n + 1 < a.length
      · simp only [chainDrop, if_pos hn]
        intro s hs
        rcases List.mem_cons.mp hs with hs | hs
        · subst hs
          intro he
          have hlen := congrArg List.length he
          simp [List.length_drop] at hlen
          omega
        · exact h s (List.mem_cons_of_mem _ hs)
      · simp only [chainDrop, if_neg hn]
        exact ih _ (fun s hs => h s (List.mem_cons_of_mem _ hs))

theorem chainDrop_flatten (c : Chain) (n : Nat) :
    (chainDrop c n).flatten = c.flatten.drop n := by
  induction c generalizing n with
  | nil => cases n <;> simp [chainDrop]
  | cons a c ih =>
    cases n with
    | zero => simp [chainDrop]
    | succ n =>
      by_cases hn : n + 1 < a.length
      · simp [chainDrop, hn, List.drop_append_of_le_length (le_of_lt hn)]
      · simp only [chainDrop, if_neg hn, ih, List.flatten_cons]
        rw [show n + 1 = a.length + (n + 1 - a.length) by omega, List.drop_append]
        congr 1
        omega

theorem consume_measure_le (c : Chain) (n : Nat) :
    gwbuf_length (gwbuf_consume c n) + (gwbuf_consume c n).length
      ≤ gwbuf_length c + c.length := by
  cases c with
  | nil => simp [gwbuf_consume]
  | cons a c =>
    by_cases hn : n < a.length <;> simp [gwbuf_consume, hn, gwlen_cons] <;> omega

theorem consume_measure_lt (a : Segment) (c : Chain) (n : Nat) (hn : 1 ≤ n) :
    gwbuf_length (gwbuf_consume (a :: c) n) + (gwbuf_consume (a :: c) n).length
      < gwbuf_length (a :: c) + (a :: c).length := by
  by_cases h : n < a.length
  · simp [gwbuf_consume, h, gwlen_cons]
    omega
  · simp [gwbuf_consume, h, gwlen_cons]
    omega

theorem consume_head (a : Segment) (c : Chain) : gwbuf_consume (a :: c) a.length = c := by
  simp [gwbuf_consume]

theorem consume_eq_chainDrop_inplace (a : Segment) (c : Chain) (n : Nat)
    (hn1 : 1 ≤ n) (h : n ≤ a.length) :
    gwbuf_consume (a :: c) n = chainDrop (a :: c) n := by
  cases n with
  | zero => omega
  | succ n =>
    by_cases hn : n + 1 < a.length
    · simp [gwbuf_consume, chainDrop, hn]
    · have he : n + 1 = a.length := by omega
      simp [gwbuf_consume, chainDrop, hn, he, List.drop_of_length_le, chainDrop]

theorem consume_eq_chainDrop_copy (a b : Segment) (c : Chain) (n : Nat)
    (hlo : a.length < n) (hhi : n ≤ a.length + b.length) :
    gwbuf_consume (gwbuf_consume (a :: b :: c) a.length) (n - a.length)
      = chainDrop (a :: b :: c) n := by
  rw [consume_head]
  have hn0 : ¬ n < a.length := by omega
  cases hn : n with
  | zero => omega
  | succ m =>
    simp only [chainDrop, if_neg (by omega : ¬ m + 1 < a.length)]
    rw [← hn]
    rw [consume_eq_chainDrop_inplace b c (n - a.length) (by omega) (by omega)]

theorem packetLen_eq (c : Chain) (hne : ∀ s ∈ c, s ≠ []) (h3 : 3 ≤ seg2len c) :
    packetLen c = extract_field c.flatten 24 + 4 := by
  rcases c with _ | ⟨a, rest⟩
  · simp [seg2len] at h3
  · have ha : a ≠ [] := hne a (by simp)
    rcases rest with _ | ⟨b, rest⟩
    · have h3a : 3 ≤ a.length := by simpa [seg2len] using h3
      simp only [packetLen, if_pos h3a, extract_field, List.flatten_cons,
        List.flatten_nil, List.append_nil]
    · by_cases h3a : 3 ≤ a.length
      · simp only [packetLen, if_pos h3a, extract_field, List.flatten_cons]
        rw [extract_bytes_append _ _ ((24 + 7) / 8) (by omega)]
      · have hb : b ≠ [] := hne b (by simp)
        have hbl : 1 ≤ b.length := List.length_pos.mpr hb
        have hal : 1 ≤ a.length := List.length_pos.mpr ha
        have hs2 : seg2len (a :: b :: rest) = a.length + b.length := rfl
        rcases a with _ | ⟨x, _ | ⟨y, _ | ⟨z, t⟩⟩⟩
        · simp at ha
        · obtain ⟨b0, b1, hb2⟩ : ∃ b0 b1, b = b0 :: b1 := by
            rcases b with _ | ⟨b0, b1⟩
            · simp at hb
            · exact ⟨b0, b1, rfl⟩
          obtain ⟨c0, c1, hbb⟩ : ∃ c0 c1, b1 = c0 :: c1 := by
            rcases b1 with _ | ⟨c0, c1⟩
            · exfalso
              rw [hs2, hb2] at h3
              simp at h3
            · exact ⟨c0, c1, rfl⟩
          subst hb2
          subst hbb
          simp [packetLen, extract_field, extract_bytes]
          try ring
        · obtain ⟨b0, b1, hb2⟩ : ∃ b0 b1, b = b0 :: b1 := by
            rcases b with _ | ⟨b0, b1⟩
            · simp at hb
            · exact ⟨b0, b1, rfl⟩
          subst hb2
          simp [packetLen, extract_field, extract_bytes]
          try ring
        · exfalso
          apply h3a
          simp

theorem seg2len_le_gwlen (c : Chain) : seg2len c ≤ gwbuf_length c := by
  rcases c with _ | ⟨a, _ | ⟨b, rest⟩⟩ <;> simp [seg2len, gwbuf_length]

theorem seg2len_small (c : Chain) (h : c.length ≤ 2) : seg2len c = gwbuf_length c := by
  rcases c with _ | ⟨a, _ | ⟨b, rest⟩⟩
  · rfl
  · simp [seg2len, gwbuf_length]
  · simp at h
    subst h
    simp [seg2len, gwbuf_length]

theorem seg2len_append_left (c d : Chain) (h : 2 ≤ c.length) :
    seg2len (c ++ d) = seg2len c := by
  rcases c with _ | ⟨a, _ | ⟨b, rest⟩⟩
  · simp at h
  · simp at h
  · rfl

theorem ingest_loop_stuck (fuel : Nat) (r : RouterInstance) (c : Chain)
    (h : gwbuf_length c ≤ 24 ∨ gwbuf_length c < packetLen c) :
    (blr_ingest_loop fuel r c).processed = []
    ∧ (blr_ingest_loop fuel r c).rest = c := by
  cases fuel with
  | zero => simp [blr_ingest_loop]
  | succ m =>
    by_cases h24 : 24 < gwbuf_length c
    · rcases h with h | h
      · omega
      · cases c with
        | nil => simp [gwbuf_length] at h24
        | cons a rest =>
          have hres : a.length ≤ gwbuf_length (a :: rest) := by
            rw [gwlen_cons]
            omega
          have hc1 : ¬ (a.length < packetLen (a :: rest)
              ∧ packetLen (a :: rest) ≤ gwbuf_length (a :: rest)) := by
            intro hx
            omega
          have hc2 : a.length < packetLen (a :: rest) := by omega
          have hc3 : ¬ packetLen (a :: rest) ≤ gwbuf_length (a :: rest) := by omega
          simp [blr_ingest_loop, h24, hc1, hc2, hc3]
    · simp [blr_ingest_loop, h24]

theorem ingest_loop_inplace (m : Nat) (r : RouterInstance) (a : Segment) (crest : Chain)
    (h24 : 24 < gwbuf_length (a :: crest))
    (hlen : packetLen (a :: crest) ≤ a.length) :
    blr_ingest_loop (m + 1) r (a :: crest)
      = { blr_ingest_loop m (blr_handle_event r a).1
            (gwbuf_consume (a :: crest) (packetLen (a :: crest))) with
          processed := a.take (packetLen (a :: crest))
            :: (blr_ingest_loop m (blr_handle_event r a).1
                (gwbuf_consume (a :: crest) (packetLen (a :: crest)))).processed
          effs := (blr_handle_event r a).2
            :: (blr_ingest_loop m (blr_handle_event r a).1
                (gwbuf_consume (a :: crest) (packetLen (a :: crest)))).effs } := by
  have hc1 : ¬ (a.length < packetLen (a :: crest)
      ∧ packetLen (a :: crest) ≤ gwbuf_length (a :: crest)) := by
    intro hx
    omega
  have hc2 : ¬ a.length < packetLen (a :: crest) := by omega
  simp [blr_ingest_loop, h24, hc1, hc2]

theorem ingest_loop_copy (m : Nat) (r : RouterInstance) (a : Segment) (crest : Chain)
    (h24 : 24 < gwbuf_length (a :: crest))
    (hlo : a.length < packetLen (a :: crest))
    (hhi : packetLen (a :: crest) ≤ gwbuf_length (a :: crest)) :
    blr_ingest_loop (m + 1) r (a :: crest)
      = { blr_ingest_loop m
            (blr_handle_event r
              (a ++ readBytes (crest.headD []) (packetLen (a :: crest) - a.length))).1
            (gwbuf_consume (gwbuf_consume (a :: crest) a.length)
              (packetLen (a :: crest) - a.length)) with
          processed := (a ++ readBytes (crest.headD []) (packetLen (a :: crest) - a.length))
            :: (blr_ingest_loop m
                (blr_handle_event r
                  (a ++ readBytes (crest.headD []) (packetLen (a :: crest) - a.length))).1
                (gwbuf_consume (gwbuf_consume (a :: crest) a.length)
                  (packetLen (a :: crest) - a.length))).processed
          effs := (blr_handle_event r
              (a ++ readBytes (crest.headD []) (packetLen (a :: crest) - a.length))).2
            :: (blr_ingest_loop m
                (blr_handle_event r
                  (a ++ readBytes (crest.headD []) (packetLen (a :: crest) - a.length))).1
                (gwbuf_consume (gwbuf_consume (a :: crest) a.length)
                  (packetLen (a :: crest) - a.length))).effs } := by
  simp [blr_ingest_loop, h24, hlo, hhi]

theorem ingest_loop_good {ps : List (List Nat)} {f : List Nat} {cd : Chain}
    (hg : GoodChain ps f cd) :
    ∀ c d : Chain, cd = c ++ d →
    ∀ fuel : Nat, gwbuf_length c + c.length < fuel →
    ∀ r : RouterInstance,
      ∃ ps1 ps2, ps = ps1 ++ ps2
        ∧ (blr_ingest_loop fuel r c).processed = ps1
        ∧ GoodChain ps2 f ((blr_ingest_loop fuel r c).rest ++ d)
        ∧ (d = [] → ps2 = [] ∧ ((blr_ingest_loop fuel r c).rest).flatten = f) := by
  induction hg with
  | nil f0 c0 hf hl hn hfr =>
    intro c d hcd fuel hfuel r
    subst hcd
    have hcl : c.length ≤ 2 := by
      rw [List.length_append] at hl
      omega
    have hnc : ∀ s ∈ c, s ≠ [] := fun s hs => hn s (List.mem_append_left d hs)
    have hlenc : gwbuf_length c ≤ f0.length := by
      rw [← hf, List.flatten_append, List.length_append, gwlen_flatten]
      omega
    have hstuck : gwbuf_length c ≤ 24 ∨ gwbuf_length c < packetLen c := by
      by_cases h24 : gwbuf_length c ≤ 24
      · exact Or.inl h24
      · right
        have h3 : 3 ≤ seg2len c := by
          rw [seg2len_small c hcl]
          omega
        rw [packetLen_eq c hnc h3]
        have hext : extract_field c.flatten 24 = extract_field f0 24 := by
          rw [← hf, List.flatten_append, extract_field, extract_field,
            extract_bytes_append _ _ _ (by rw [gwlen_flatten]; omega)]
        rw [hext]
        rcases hfr with hfr | hfr <;> omega
    obtain ⟨hp, hr⟩ := ingest_loop_stuck fuel r c hstuck
    refine ⟨[], [], rfl, hp, ?_, ?_⟩
    · rw [hr]
      exact GoodChain.nil f0 (c ++ d) hf hl hn hfr
    · intro hd
      subst hd
      refine ⟨rfl, ?_⟩
      rw [hr]
      simpa using hf
  | cons p ps0 f0 c0 hwf h25 htake hspan hn hdrop ih =>
    intro c d hcd fuel hfuel r
    subst hcd
    have hple_cd : p.length ≤ gwbuf_length (c ++ d) := by
      have hlt := congrArg List.length htake
      simp only [List.length_take] at hlt
      rw [← gwlen_flatten]
      omega
    have hnc : ∀ s ∈ c, s ≠ [] := fun s hs => hn s (List.mem_append_left d hs)
    by_cases hcc : p.length ≤ gwbuf_length c
    · rcases c with _ | ⟨a, crest⟩
      · exfalso
        have h0 : gwbuf_length ([] : Chain) = 0 := rfl
        omega
      have h24 : 24 < gwbuf_length (a :: crest) := by omega
      have h3 : 3 ≤ seg2len (a :: crest) := by
        rcases crest with _ | ⟨b, c2⟩
        · rw [seg2len_small _ (by simp)]
          omega
        · have hseq : seg2len ((a :: b :: c2) ++ d) = seg2len (a :: b :: c2) :=
            seg2len_append_left _ _ (by simp)
          omega
      have hlen : packetLen (a :: crest) = p.length := by
        rw [packetLen_eq _ hnc h3, hwf]
        congr 1
        rw [← htake, extract_field, extract_field, extract_bytes_take _ _ _ (by omega)]
        rw [List.flatten_append, extract_bytes_append _ _ _ (by rw [gwlen_flatten]; omega)]
      have htake2 : (a ++ (crest ++ d).flatten).take p.length = p := by
        simpa using htake
      cases fuel with
      | zero => omega
      | succ m =>
        by_cases hina : p.length ≤ a.length
        · rw [ingest_loop_inplace m r a crest h24 (by omega)]
          have hcons : gwbuf_consume (a :: crest) p.length
              = chainDrop (a :: crest) p.length :=
            consume_eq_chainDrop_inplace a crest p.length (by omega) hina
          have hq : chainDrop ((a :: crest) ++ d) p.length
              = chainDrop (a :: crest) p.length ++ d :=
            chainDrop_append_left _ _ _ hcc
          have hmeas : gwbuf_length (chainDrop (a :: crest) p.length)
              + (chainDrop (a :: crest) p.length).length < m := by
            have h1 := consume_measure_lt a crest p.length (by omega)
            rw [← consume_eq_chainDrop_inplace a crest p.length (by omega) hina]
            omega
          obtain ⟨ps1, ps2, hsplit, hproc, hgood, hlast⟩ :=
            ih (chainDrop (a :: crest) p.length) d hq m hmeas (blr_handle_event r a).1
          have hhead : a.take p.length = p := by
            conv_rhs => rw [← htake2]
            rw [List.take_append_of_le_length hina]
          refine ⟨p :: ps1, ps2, by simp [hsplit], ?_, ?_, ?_⟩
          · simp only [hlen, hcons, hhead, hproc]
          · simpa only [hlen, hcons] using hgood
          · intro hd
            obtain ⟨h1, h2⟩ := hlast hd
            refine ⟨h1, ?_⟩
            simpa only [hlen, hcons] using h2
        · have hina2 : a.length < p.length := by omega
          rcases crest with _ | ⟨b, c2⟩
          · exfalso
            rw [gwlen_cons] at hcc
            simp [gwbuf_length] at hcc
            omega
          have hseq : seg2len ((a :: b :: c2) ++ d) = seg2len (a :: b :: c2) :=
            seg2len_append_left _ _ (by simp)
          have hspan2 : p.length ≤ a.length + b.length := by
            have : seg2len (a :: b :: c2) = a.length + b.length := rfl
            omega
          rw [ingest_loop_copy m r a (b :: c2) h24 (by omega) (by omega)]
          have hread : readBytes b (p.length - a.length) = b.take (p.length - a.length) :=
            readBytes_eq_take b _ (by omega)
          have hmsg : a ++ b.take (p.length - a.length) = p := by
            conv_rhs => rw [← htake2]
            simp only [List.cons_append, List.flatten_cons]
            rw [List.take_append_eq_append_take, List.take_of_length_le (le_of_lt hina2),
              List.take_append_of_le_length
                (show p.length - a.length ≤ b.length by omega)]
          have hcons : gwbuf_consume (gwbuf_consume (a :: b :: c2) a.length)
              (p.length - a.length) = chainDrop (a :: b :: c2) p.length :=
            consume_eq_chainDrop_copy a b c2 p.length hina2 hspan2
          have hq : chainDrop ((a :: b :: c2) ++ d) p.length
              = chainDrop (a :: b :: c2) p.length ++ d :=
            chainDrop_append_left _ _ _ hcc
          have hmeas : gwbuf_length (chainDrop (a :: b :: c2) p.length)
              + (chainDrop (a :: b :: c2) p.length).length < m := by
            rw [← hcons, consume_head]
            have h2 := consume_measure_le (b :: c2) (p.length - a.length)
            have h3 : gwbuf_length (a :: b :: c2) = a.length + gwbuf_length (b :: c2) :=
              gwlen_cons _ _
            simp only [List.length_cons] at hfuel h2 ⊢
            omega
          obtain ⟨ps1, ps2, hsplit, hproc, hgood, hlast⟩ :=
            ih (chainDrop (a :: b :: c2) p.length) d hq m hmeas (blr_handle_event r p).1
          refine ⟨p :: ps1, ps2, by simp [hsplit], ?_, ?_, ?_⟩
          · simp only [hlen, List.headD_cons, hread, hmsg, hcons, hproc]
          · simpa only [hlen, List.headD_cons, hread, hmsg, hcons] using hgood
          · intro hd
            obtain ⟨h1, h2⟩ := hlast hd
            refine ⟨h1, ?_⟩
            simpa only [hlen, List.headD_cons, hread, hmsg, hcons] using h2
    · have hclen1 : c.length ≤ 1 := by
        by_contra hc2
        push_neg at hc2
        have hseq := seg2len_append_left c d (by omega)
        have hle := seg2len_le_gwlen c
        omega
      have hstuck : gwbuf_length c ≤ 24 ∨ gwbuf_length c < packetLen c := by
        by_cases h24 : gwbuf_length c ≤ 24
        · exact Or.inl h24
        · right
          rcases c with _ | ⟨a, crest⟩
          · simp [gwbuf_length] at h24
          rcases crest with _ | ⟨x, xs⟩
          · have hglen : gwbuf_length [a] = a.length := by simp [gwbuf_length]
            have hlen : packetLen [a] = p.length := by
              rw [packetLen_eq _ hnc (by rw [seg2len_small _ (by simp)]; omega), hwf]
              congr 1
              rw [← htake, extract_field, extract_field,
                extract_bytes_take _ _ _ (by omega)]
              rw [List.flatten_append, extract_bytes_append _ _ _ (by rw [gwlen_flatten]; omega)]
            rw [hlen]
            omega
          · simp at hclen1
      obtain ⟨hp, hr⟩ := ingest_loop_stuck fuel r c hstuck
      refine ⟨[], p :: ps0, rfl, hp, ?_, ?_⟩
      · rw [hr]
        exact GoodChain.cons p ps0 f0 (c ++ d) hwf h25 htake hspan hn hdrop
      · intro hd
        subst hd
        exfalso
        rw [gwlen_append] at hple_cd
        have h0 : gwbuf_length ([] : Chain) = 0 := rfl
        omega

theorem good_nil_chain {ps : List (List Nat)} {f : List Nat}
    (h : GoodChain ps f []) : ps = [] ∧ f = [] := by
  cases h with
  | nil f2 c2 hf hl hn hfr => exact ⟨rfl, by simpa using hf.symm⟩
  | cons p2 ps2 f2 c2 hwf h25 htake hspan hn hdrop =>
    exfalso
    have hz : seg2len ([] : Chain) = 0 := rfl
    omega

theorem blr_feed_good (segs : List Segment) :
    ∀ (r : RouterInstance) (ps : List (List Nat)) (f : List Nat),
      GoodChain ps f (r.residual ++ segs) →
      (segs = [] → ps = [] ∧ r.residual.flatten = f) →
      (blr_feed r segs).2 = ps
      ∧ ((blr_feed r segs).1.residual).flatten = f := by
  induction segs with
  | nil =>
    intro r ps f hg hbase
    obtain ⟨hps, hf⟩ := hbase rfl
    subst hps
    simp [blr_feed, hf]
  | cons seg rest ih =>
    intro r ps f hg hbase
    have hcd : r.residual ++ (seg :: rest) = (r.residual ++ [seg]) ++ rest := by simp
    rw [hcd] at hg
    obtain ⟨ps1, ps2, hsplit, hproc, hgood, hlast⟩ :=
      ingest_loop_good hg (r.residual ++ [seg]) rest rfl
        (ingestFuel (r.residual ++ [seg])) (by simp only [ingestFuel]; omega)
        { r with residual := [] }
    have hout : (blr_handle_binlog_record r [seg]).processed = ps1
        ∧ (blr_handle_binlog_record r [seg]).router.residual
            = (blr_ingest_loop (ingestFuel (r.residual ++ [seg]))
                { r with residual := [] } (r.residual ++ [seg])).rest := by
      constructor
      · simpa [blr_handle_binlog_record] using hproc
      · simp [blr_handle_binlog_record]
    obtain ⟨hih1, hih2⟩ := ih (blr_handle_binlog_record r [seg]).router ps2 f
      (by rw [hout.2]; exact hgood)
      (by intro hd; obtain ⟨h1, h2⟩ := hlast hd; exact ⟨h1, by rw [hout.2]; exact h2⟩)
    constructor
    · show ((blr_handle_binlog_record r [seg]).processed
        ++ (blr_feed (blr_handle_binlog_record r [seg]).router rest).2) = ps
      rw [hout.1, hih1, hsplit]
    · exact hih2

/-- Counterexample to C8 as stated: a delivery consisting of exactly one
whole wellformed MySQL packet of total length 24 (its length field plus 4
framing bytes equals its byte count) is not processed at all, because the
reassembly loop only runs while more than 24 bytes remain; the complete
packet, not a strict prefix of a next packet, stays in the residual. -/
theorem short_packet_stuck_counterexample :
    pkt24.length = extract_field pkt24 24 + 4
    ∧ (blr_feed (mkRouter BLRM_BINLOGDUMP []) [pkt24]).2 = []
    ∧ (blr_feed (mkRouter BLRM_BINLOGDUMP []) [pkt24]).1.residual = [pkt24] := by
  refine ⟨by decide, by decide, by decide⟩

/-- C8 amended: for every byte stream made of whole MySQL packets followed
by an optional trailing strict-prefix fragment, and for every chunking of
that stream into nonempty delivery segments in which every whole packet
has total length at least 25 and each packet, as well as the fragment,
lies within at most two segments at the moment the loop reaches it (the
GoodChain predicate), feeding the segments one call at a time to
blr_handle_binlog_record processes exactly the whole packets of the
stream, in order, and after the final delivery the residual holds exactly
the fragment bytes.  A trailing complete packet of 24 bytes or fewer
instead remains unprocessed in the residual (see the counterexample), and
a packet spanning more than two segments would be reassembled from the
first two segments only. -/
theorem reassembly_processes_whole_packets
    (segs : List Segment) (r : RouterInstance) (ps : List (List Nat)) (f : List Nat)
    (hres : r.residual = [])
    (hg : GoodChain ps f segs) :
    (blr_feed r segs).2 = ps
    ∧ ((blr_feed r segs).1.residual).flatten = f := by
  apply blr_feed_good segs r ps f (by rw [hres]; simpa using hg)
  intro hsegs
  subst hsegs
  obtain ⟨hps, hf⟩ := good_nil_chain hg
  subst hps
  subst hf
  simp [hres]

/-- Witness for the amended C8: the 25-byte packet pkt25 followed by the
fragment [21, 0], delivered as three segments of sizes 10, 16 and 1, is
processed exactly once and the final residual holds exactly the
fragment. -/
theorem reassembly_processes_whole_packets_witness :
    (blr_feed (mkRouter BLRM_BINLOGDUMP []) segs8).2 = [pkt25]
    ∧ ((blr_feed (mkRouter BLRM_BINLOGDUMP []) segs8).1.residual).flatten = [21, 0] := by
  have hg : GoodChain [pkt25] [21, 0] segs8 :=
    GoodChain.cons pkt25 [] [21, 0] segs8 (by decide) (by decide) (by decide) (by decide)
      (by decide)
      (GoodChain.nil [21, 0] (chainDrop segs8 pkt25.length) (by decide) (by decide)
        (by decide) (by decide))
  exact reassembly_processes_whole_packets segs8 (mkRouter BLRM_BINLOGDUMP []) [pkt25]
    [21, 0] (by decide) hg
